/-
  Verification of the streaming session core of retail-sample-client-go.

  Shallow embedding of:
    - client/websocket.go : WSClient (connect, close, reader loops, subscribe
      routing, request-id allocation, bounded inbound channel)
    - auth/auth.go        : SignRequest message construction
    - models/types.go     : WSSubscription wire encoding (snake_case, integer
      subscription types) and WSMessage tagged union

  Go channels of capacity 100 are modelled as lists with a non-blocking
  bounded push; goroutine interleavings relevant to reader-task shutdown are
  modelled by an explicit labelled small-step relation.
-/
import Mathlib

/-! ## JSON values

A minimal JSON AST standing for the values produced by Go's `encoding/json`
marshalling of the wire structures. -/

inductive JValue where
  | jnull : JValue
  | jbool : Bool → JValue
  | jnum : Int → JValue
  | jstr : String → JValue
  | jarr : List JValue → JValue
  | jobj : List (String × JValue) → JValue

/-- Field lookup in a JSON object field list (first occurrence wins, as in
Go's decoder for the field names we use, which are pairwise distinct). -/
def jLookup (fs : List (String × JValue)) (k : String) : Option JValue :=
  (fs.find? (fun p => p.1 = k)).map (fun p => p.2)

/-! ## models/types.go : WebSocket wire types -/

/-- Subscription type constants for the private WebSocket
(`models/types.go`: `SubscriptionTypeOrder = 1` etc.). -/
def SubscriptionTypeOrder : Int := 1
def SubscriptionTypeOrderSnapshot : Int := 2
def SubscriptionTypePosition : Int := 3
def SubscriptionTypeAccountBalance : Int := 4

/-- Subscription type constants for the markets WebSocket
(`models/types.go`: `SubscriptionTypeMarketData = 1` etc.). -/
def SubscriptionTypeMarketData : Int := 1
def SubscriptionTypeMarketDataLite : Int := 2
def SubscriptionTypeTrade : Int := 3

/-- Struct `models.WSSubscription`: `request_id` string, `subscription_type` int,
`market_slugs` (omitempty), `responses_debounced` (omitempty). -/
structure WSSubscription where
  requestID : String
  subscriptionType : Int
  marketSlugs : List String
  responsesDebounced : Bool
deriving Repr, DecidableEq

/-- Struct `models.WSSubscribeRequest`: an object with one key, `subscribe`. -/
structure WSSubscribeRequest where
  subscribe : WSSubscription
deriving Repr, DecidableEq

/-- Struct `models.WSUnsubscription`: an object with one key, `request_id`. -/
structure WSUnsubscription where
  requestID : String
deriving Repr, DecidableEq

/-- Go's `json.Marshal` on `models.WSSubscription` with its struct tags:
`request_id`, `subscription_type`, `market_slugs,omitempty`,
`responses_debounced,omitempty`.  An empty slice and `false` are the Go zero
values, so the tagged fields are omitted exactly then. -/
def encodeWSSubscription (s : WSSubscription) : JValue :=
  .jobj ([("request_id", .jstr s.requestID),
          ("subscription_type", .jnum s.subscriptionType)]
    ++ (if s.marketSlugs.isEmpty then []
        else [("market_slugs", .jarr (s.marketSlugs.map .jstr))])
    ++ (if s.responsesDebounced then [("responses_debounced", .jbool true)]
        else []))

/-- Go's `json.Marshal` on `models.WSSubscribeRequest`. -/
def encodeWSSubscribeRequest (r : WSSubscribeRequest) : JValue :=
  .jobj [("subscribe", encodeWSSubscription r.subscribe)]

/-- Go's `json.Marshal` on `models.WSUnsubscribeRequest`. -/
def encodeWSUnsubscribeRequest (u : WSUnsubscription) : JValue :=
  .jobj [("unsubscribe", .jobj [("request_id", .jstr u.requestID)])]

/-- Go's `json.Unmarshal` into `models.WSSubscription`: a missing key leaves
the zero value; a key present with a mismatched type is a decode error. -/
def decodeWSSubscription : JValue → Option WSSubscription
  | .jobj fs => do
      let rid ← match jLookup fs "request_id" with
        | none => some ""
        | some (.jstr s) => some s
        | some _ => none
      let st ← match jLookup fs "subscription_type" with
        | none => some 0
        | some (.jnum n) => some n
        | some _ => none
      let slugs ← match jLookup fs "market_slugs" with
        | none => some []
        | some (.jarr xs) =>
            xs.foldr (fun x acc => do
              let rest ← acc
              match x with
              | .jstr s => some (s :: rest)
              | _ => none) (some [])
        | some _ => none
      let deb ← match jLookup fs "responses_debounced" with
        | none => some false
        | some (.jbool b) => some b
        | some _ => none
      some ⟨rid, st, slugs, deb⟩
  | _ => none

/-- Go's `json.Unmarshal` of a subscribe frame into `models.WSSubscribeRequest`. -/
def decodeWSSubscribeRequest : JValue → Option WSSubscribeRequest
  | .jobj fs => do
      let sub ← match jLookup fs "subscribe" with
        | some v => decodeWSSubscription v
        | none => none
      some ⟨sub⟩
  | _ => none

/-- Struct `models.WSMessage`: the tagged union over inbound payloads.  Payload
subtrees are kept as their decoded JSON values; the session core never
inspects them, only the presence of each variant. `heartbeat` is a
`*struct{}` in Go, i.e. presence only. -/
structure WSMessage where
  requestID : String
  subscriptionType : String
  error : String
  heartbeat : Option Unit
  orderSubscriptionSnapshot : Option JValue
  orderSubscriptionUpdate : Option JValue
  positionSubscription : Option JValue
  accountBalancesSnapshot : Option JValue
  accountBalancesUpdate : Option JValue
  marketData : Option JValue
  marketDataLite : Option JValue
  trade : Option JValue

/-- A `WSMessage` with every field at its Go zero value. -/
def WSMessage.zero : WSMessage :=
  ⟨"", "", "", none, none, none, none, none, none, none, none, none⟩

/-! ## client/websocket.go : inbound queue

`NewWSClient` creates `messages: make(chan *models.WSMessage, 100)`.  With no
consumer draining, a buffered channel of capacity 100 holds a FIFO list of at
most 100 messages. -/

/-- The capacity of the inbound queue, from `make(chan *models.WSMessage, 100)`. -/
def inboundQueueBound : Nat := 100

/-- The reader tasks' push site
`select { case c.messages <- &msg: default: /- drop -/ }`:
a non-blocking send on the buffered channel.  With no consumer, the send
succeeds exactly when the buffer has room; otherwise the message is dropped.
Total function: the push can never block. -/
def chanTrySend (q : List WSMessage) (m : WSMessage) : List WSMessage :=
  if q.length < inboundQueueBound then q ++ [m] else q

/-- One iteration of the body of `readPrivate` / `readMarkets` after
`ReadMessage` returned a frame, acting on the queue: `json.Unmarshal` failure
(`none`) logs and continues; a decoded heartbeat is discarded; anything else
is pushed non-blockingly. (`readPrivate` lines 149–167 and `readMarkets`
lines 189–206 are this same body verbatim.) -/
def readerStepMsg (q : List WSMessage) (d : Option WSMessage) : List WSMessage :=
  match d with
  | none => q
  | some msg => if msg.heartbeat.isSome then q else chanTrySend q msg

/-- The queue contents after the reader processes a sequence of decode
results starting from a queue state `q` with no consumer draining. -/
def readerDeliverAll (q : List WSMessage) (ds : List (Option WSMessage)) :
    List WSMessage :=
  ds.foldl readerStepMsg q

/-! ## Decimal rendering

Embedding of Go's `fmt.Sprintf("%d", n)` / `strconv.FormatInt(n, 10)` on
non-negative integers: standard decimal form.  Implemented with explicit
fuel so the definition is structurally recursive and reduces by `decide`. -/

/-- The ASCII digit character for `d < 10`. -/
def digitChar (d : Nat) : Char := Char.ofNat (48 + d)

/-- Decimal digit characters of `n`, most significant first, assuming
`n < fuel` so the fuel never runs out. -/
def decDigitsAux : Nat → Nat → List Char
  | 0, _ => []
  | fuel + 1, n =>
      if n < 10 then [digitChar n]
      else decDigitsAux fuel (n / 10) ++ [digitChar (n % 10)]

/-- Decimal string of a natural number, e.g. `natDecimal 42 = "42"`. -/
def natDecimal (n : Nat) : String := ⟨decDigitsAux (n + 1) n⟩

theorem decDigitsAux_ne_nil (fuel n : Nat) (h : 0 < fuel) :
    decDigitsAux fuel n ≠ [] := by
  cases fuel with
  | zero => omega
  | succ f =>
      unfold decDigitsAux
      split
      · simp
      · simp

theorem digitChar_inj {d e : Nat} (hd : d < 10) (he : e < 10)
    (h : digitChar d = digitChar e) : d = e := by
  interval_cases d <;> interval_cases e <;> first | rfl | (exfalso; exact absurd h (by decide))

theorem digitChar_ne_dash {d : Nat} (hd : d < 10) : digitChar d ≠ '-' := by
  interval_cases d <;> decide

theorem decDigitsAux_inj :
    ∀ n₁ {f₁ f₂ n₂}, n₁ < f₁ → n₂ < f₂ →
      decDigitsAux f₁ n₁ = decDigitsAux f₂ n₂ → n₁ = n₂ := by
  intro n₁
  induction n₁ using Nat.strong_induction_on with
  | _ n₁ ih =>
    intro f₁ f₂ n₂ h₁ h₂ heq
    cases f₁ with
    | zero => omega
    | succ g₁ =>
      cases f₂ with
      | zero => omega
      | succ g₂ =>
        unfold decDigitsAux at heq
        by_cases c₁ : n₁ < 10 <;> by_cases c₂ : n₂ < 10 <;> simp only [c₁, c₂, if_pos, if_neg, if_true, if_false] at heq
        · exact digitChar_inj c₁ c₂ (List.singleton_inj.mp heq)
        · exfalso
          have hlen := congrArg List.length heq
          simp only [List.length_singleton, List.length_append] at hlen
          exact decDigitsAux_ne_nil g₂ (n₂ / 10) (by omega)
            (List.length_eq_zero.mp (by omega))
        · exfalso
          have hlen := congrArg List.length heq
          simp only [List.length_singleton, List.length_append] at hlen
          exact decDigitsAux_ne_nil g₁ (n₁ / 10) (by omega)
            (List.length_eq_zero.mp (by omega))
        · have hparts := List.append_inj' heq (by simp)
          have hdiv : n₁ / 10 = n₂ / 10 := by
            refine ih (n₁ / 10) ?_ ?_ ?_ hparts.1
            · have : 10 ≤ n₁ := Nat.le_of_not_lt c₁; omega
            · have : 10 ≤ n₁ := Nat.le_of_not_lt c₁; omega
            · have : 10 ≤ n₂ := Nat.le_of_not_lt c₂; omega
          have hmod : n₁ % 10 = n₂ % 10 := by
            have := List.singleton_inj.mp hparts.2
            exact digitChar_inj (Nat.mod_lt _ (by omega)) (Nat.mod_lt _ (by omega)) this
          omega

theorem natDecimal_inj {m n : Nat} (h : natDecimal m = natDecimal n) : m = n := by
  have : decDigitsAux (m + 1) m = decDigitsAux (n + 1) n := congrArg String.data h
  exact decDigitsAux_inj m (Nat.lt_succ_self m) (Nat.lt_succ_self n) this

theorem decDigitsAux_no_dash :
    ∀ fuel n, '-' ∉ decDigitsAux fuel n := by
  intro fuel
  induction fuel with
  | zero => intro n; simp [decDigitsAux]
  | succ g ih =>
      intro n
      unfold decDigitsAux
      split
      · next c =>
          simp only [List.mem_singleton]
          exact fun hc => (digitChar_ne_dash c) hc.symm
      · next c =>
          simp only [List.mem_append, List.mem_singleton]
          rintro (hm | hm)
          · exact ih _ hm
          · exact (digitChar_ne_dash (Nat.mod_lt _ (by omega))) hm.symm

theorem natDecimal_no_dash (n : Nat) : '-' ∉ (natDecimal n).data :=
  decDigitsAux_no_dash _ n

/-- The modulus of Go's `int` on 64-bit platforms, 2^64: the counter field
`c.requestID` is a Go `int`, and `c.requestID++` wraps modulo this. -/
def int64Modulus : Nat := 18446744073709551616

/-- Rendering of a Go `int` by `fmt.Sprintf("%d", ·)`, taking the counter's
bit pattern (its value mod 2^64): patterns below 2^63 print as themselves,
patterns at or above 2^63 print as the negative two's-complement value. -/
def int64Decimal (bits : Nat) : String :=
  if bits < 9223372036854775808 then natDecimal bits
  else "-" ++ natDecimal (int64Modulus - bits)

theorem int64Decimal_inj {b₁ b₂ : Nat} (h₁ : b₁ < int64Modulus)
    (h₂ : b₂ < int64Modulus) (h : int64Decimal b₁ = int64Decimal b₂) :
    b₁ = b₂ := by
  have hdash : ("-" : String).data = ['-'] := rfl
  unfold int64Decimal at h
  by_cases c₁ : b₁ < 9223372036854775808 <;>
    by_cases c₂ : b₂ < 9223372036854775808 <;>
    simp only [c₁, c₂, if_pos, if_neg, if_true, if_false] at h
  · exact natDecimal_inj h
  · exfalso
    apply natDecimal_no_dash b₁
    have hd := congrArg String.data h
    rw [String.data_append, hdash] at hd
    rw [hd, List.singleton_append]
    exact List.mem_cons_self _ _
  · exfalso
    apply natDecimal_no_dash b₂
    have hd := congrArg String.data h
    rw [String.data_append, hdash] at hd
    rw [← hd, List.singleton_append]
    exact List.mem_cons_self _ _
  · have hd := congrArg String.data h
    rw [String.data_append, String.data_append, hdash] at hd
    simp only [List.singleton_append, List.cons.injEq, true_and] at hd
    have hsub := natDecimal_inj (String.ext hd)
    simp only [int64Modulus] at hsub h₁ h₂
    omega

/-! ## client/websocket.go : WSClient state

A `websocket.Conn` is modelled by the observations the claims need: the
ordered list of frames written on it and whether `Close()` has been invoked
on it.  The `done` channel is modelled by the flag `doneClosed` (a Go channel
that has been `close`d); `connected` is carried verbatim, and the request-id
counter — a Go `int` — is carried as its bit pattern modulo 2^64, so that
the increment wraps exactly as the program's does.  The `messages` channel
buffer is the list from the queue model above. -/

/-- One underlying `websocket.Conn`, as observed by this development. -/
structure Conn where
  sent : List JValue
  closeCalled : Bool

/-- A freshly dialled connection: nothing written, not closed. -/
def Conn.fresh : Conn := ⟨[], false⟩

/-- Struct `client.WSClient` (the session): counter, the two optional sockets, the
inbound buffer, the `connected` flag, and whether `close(c.done)` has run. -/
structure WSClient where
  requestID : Nat
  privateConn : Option Conn
  marketsConn : Option Conn
  messages : List WSMessage
  connected : Bool
  doneClosed : Bool

/-- Constructor `NewWSClient`: zero counter, no sockets, empty buffered channel of
capacity 100, not connected, `done` open. -/
def NewWSClient : WSClient :=
  { requestID := 0
    privateConn := none
    marketsConn := none
    messages := []
    connected := false
    doneClosed := false }

/-- Method `IsConnected`: returns the `connected` flag (under the mutex).
(Namespaced, since Mathlib already has a top-level `IsConnected`.) -/
def WSClient.IsConnected (c : WSClient) : Bool := c.connected

/-- Method `Connect`, with the outcomes of the two dials supplied as oracles
(`privOk`, `mktOk`): dial private (on failure return the error with the
client unchanged); on success store the socket; dial markets (on failure
call `c.privateConn.Close()` and return the error); on success store the
socket, set `connected`, and spawn both reader tasks.  Returns Go's
`error` result paired with the post-call client state. -/
def Connect (c : WSClient) (privOk mktOk : Bool) :
    Option String × WSClient :=
  if ¬privOk then
    (some "failed to connect to private WebSocket", c)
  else
    let c₁ : WSClient := { c with privateConn := some Conn.fresh }
    if ¬mktOk then
      (some "failed to connect to markets WebSocket",
       { c₁ with privateConn := some { Conn.fresh with closeCalled := true } })
    else
      (none, { c₁ with marketsConn := some Conn.fresh, connected := true })

/-- The result of `Close`: Go's `close(c.done)` panics when the channel is
already closed, so a second call panics; otherwise `Close` returns an
optional aggregate error (the list of per-socket close errors) and the new
state. -/
inductive CloseResult where
  | panicked : CloseResult
  | normal : Option (List String) → WSClient → CloseResult

/-- Method `Close`, with the outcomes of the two underlying `conn.Close()` calls
supplied as oracles (`privFail`, `mktFail` say the close returned an error):
`close(c.done)` (panic if already closed), then close each present socket in
turn collecting errors — the markets close runs even if the private close
failed — clear `connected`, and return the aggregate error iff any close
failed. -/
def Close (c : WSClient) (privFail mktFail : Bool) : CloseResult :=
  if c.doneClosed then
    .panicked
  else
    let c₁ : WSClient := { c with doneClosed := true }
    let errsPriv : List String :=
      match c₁.privateConn with
      | some _ => if privFail then ["private close error"] else []
      | none => []
    let c₂ : WSClient :=
      { c₁ with privateConn := c₁.privateConn.map fun cn => { cn with closeCalled := true } }
    let errsMkt : List String :=
      match c₂.marketsConn with
      | some _ => if mktFail then ["markets close error"] else []
      | none => []
    let c₃ : WSClient :=
      { c₂ with marketsConn := c₂.marketsConn.map fun cn => { cn with closeCalled := true } }
    let errs := errsPriv ++ errsMkt
    let c₄ : WSClient := { c₃ with connected := false }
    .normal (if errs.isEmpty then none else some errs) c₄

/-- Method `nextRequestID` (under the mutex): increment the session counter —
a Go `int`, so the increment wraps modulo 2^64 — and render
`fmt.Sprintf("%s-%d", prefix, c.requestID)` of the new signed value. -/
def nextRequestID (c : WSClient) (pfx : String) : String × WSClient :=
  let n := (c.requestID + 1) % int64Modulus
  (pfx ++ "-" ++ int64Decimal n, { c with requestID := n })

/-- Method `sendPrivate`: error if the private socket is absent; otherwise marshal
the frame and write it on the private socket. -/
def sendPrivate (c : WSClient) (frame : JValue) : Except String WSClient :=
  match c.privateConn with
  | none => .error "private WebSocket not connected"
  | some cn => .ok { c with privateConn := some { cn with sent := cn.sent ++ [frame] } }

/-- Method `sendMarkets`: error if the markets socket is absent; otherwise marshal
the frame and write it on the markets socket. -/
def sendMarkets (c : WSClient) (frame : JValue) : Except String WSClient :=
  match c.marketsConn with
  | none => .error "markets WebSocket not connected"
  | some cn => .ok { c with marketsConn := some { cn with sent := cn.sent ++ [frame] } }

/-- Method `SubscribeOrders`: allocate a `"order"`-prefixed request-id, build the
subscribe frame with `SubscriptionTypeOrder`, send it on the private socket.
On a send error Go returns `("", err)`; the post-call state is paired in. -/
def SubscribeOrders (c : WSClient) (marketSlugs : List String) :
    Except String String × WSClient :=
  let (requestID, c₁) := nextRequestID c "order"
  let msg : WSSubscribeRequest :=
    ⟨⟨requestID, SubscriptionTypeOrder, marketSlugs, false⟩⟩
  match sendPrivate c₁ (encodeWSSubscribeRequest msg) with
  | .error e => (.error e, c₁)
  | .ok c₂ => (.ok requestID, c₂)

/-- Method `SubscribePositions`: as `SubscribeOrders` with prefix `"position"` and
`SubscriptionTypePosition`, on the private socket. -/
def SubscribePositions (c : WSClient) (marketSlugs : List String) :
    Except String String × WSClient :=
  let (requestID, c₁) := nextRequestID c "position"
  let msg : WSSubscribeRequest :=
    ⟨⟨requestID, SubscriptionTypePosition, marketSlugs, false⟩⟩
  match sendPrivate c₁ (encodeWSSubscribeRequest msg) with
  | .error e => (.error e, c₁)
  | .ok c₂ => (.ok requestID, c₂)

/-- Method `SubscribeBalances`: prefix `"balance"`, `SubscriptionTypeAccountBalance`,
no market slugs, on the private socket. -/
def SubscribeBalances (c : WSClient) :
    Except String String × WSClient :=
  let (requestID, c₁) := nextRequestID c "balance"
  let msg : WSSubscribeRequest :=
    ⟨⟨requestID, SubscriptionTypeAccountBalance, [], false⟩⟩
  match sendPrivate c₁ (encodeWSSubscribeRequest msg) with
  | .error e => (.error e, c₁)
  | .ok c₂ => (.ok requestID, c₂)

/-- Method `SubscribeMarketData`: prefix `"marketdata"`, `SubscriptionTypeMarketData`,
market slugs and the debounce flag, on the markets socket. -/
def SubscribeMarketData (c : WSClient) (marketSlugs : List String)
    (debounced : Bool) : Except String String × WSClient :=
  let (requestID, c₁) := nextRequestID c "marketdata"
  let msg : WSSubscribeRequest :=
    ⟨⟨requestID, SubscriptionTypeMarketData, marketSlugs, debounced⟩⟩
  match sendMarkets c₁ (encodeWSSubscribeRequest msg) with
  | .error e => (.error e, c₁)
  | .ok c₂ => (.ok requestID, c₂)

/-- Method `SubscribeMarketDataLite`: prefix `"marketdatalite"`,
`SubscriptionTypeMarketDataLite`, on the markets socket. -/
def SubscribeMarketDataLite (c : WSClient) (marketSlugs : List String) :
    Except String String × WSClient :=
  let (requestID, c₁) := nextRequestID c "marketdatalite"
  let msg : WSSubscribeRequest :=
    ⟨⟨requestID, SubscriptionTypeMarketDataLite, marketSlugs, false⟩⟩
  match sendMarkets c₁ (encodeWSSubscribeRequest msg) with
  | .error e => (.error e, c₁)
  | .ok c₂ => (.ok requestID, c₂)

/-- Method `SubscribeTrades`: prefix `"trade"`, `SubscriptionTypeTrade`, on the
markets socket. -/
def SubscribeTrades (c : WSClient) (marketSlugs : List String) :
    Except String String × WSClient :=
  let (requestID, c₁) := nextRequestID c "trade"
  let msg : WSSubscribeRequest :=
    ⟨⟨requestID, SubscriptionTypeTrade, marketSlugs, false⟩⟩
  match sendMarkets c₁ (encodeWSSubscribeRequest msg) with
  | .error e => (.error e, c₁)
  | .ok c₂ => (.ok requestID, c₂)

/-- Method `Unsubscribe`: send an unsubscribe frame referencing `requestID` on the
socket selected by `isPrivate`. -/
def Unsubscribe (c : WSClient) (requestID : String) (isPrivate : Bool) :
    Except String WSClient :=
  let frame := encodeWSUnsubscribeRequest ⟨requestID⟩
  if isPrivate then sendPrivate c frame else sendMarkets c frame

/-! ## auth/auth.go : request signing

`SignRequest` signs `timestamp + req.Method + req.URL.Path`.  The request is
built by `http.NewRequest(method, url, body)`, whose `net/url` parsing of a
request URI cuts the fragment at the first `#` and the query at the first
`?`; `URL.Path` is what precedes both. -/

/-- The path component of a raw request URI per `net/url`: everything before
the first `#` and before the first `?`. -/
def urlPathChars (cs : List Char) : List Char :=
  (cs.takeWhile (fun c => c != '#')).takeWhile (fun c => c != '?')

/-- The path component as a string (`req.URL.Path`). -/
def urlPath (s : String) : String := ⟨urlPathChars s.data⟩

/-- The message signed by `auth.SignRequest`:
`strconv.FormatInt(timestampMs, 10) + method + req.URL.Path`,
with the request URL given raw (possibly carrying a query string). -/
def signMessage (timestampMs : Nat) (method rawURL : String) : String :=
  natDecimal timestampMs ++ method ++ urlPath rawURL

/-! ## Reader-task shutdown: small-step model

For claims about cancellation we make the interleaving explicit.  The loop of
`readPrivate` / `readMarkets` is

  for { select { case <-c.done: return
                 default: ReadMessage() /- blocks -/ ; decode/filter/push } }

so a reader task is always at one of: the top-of-loop `done` poll, blocked
inside `ReadMessage`, or exited.  Environment events: the cancellation signal
firing (`close(c.done)`), the scheduler letting the task run its poll, and
`ReadMessage` returning (a frame, or an error — both the normal-closure and
the other error arms of the Go code terminate the loop). -/

inductive ReaderPC where
  | checkDone : ReaderPC
  | blockedRecv : ReaderPC
  | exited : ReaderPC
deriving Repr, DecidableEq

/-- A reader task's configuration: its control point, the `done` flag
(whether `close(c.done)` has happened), and the inbound queue contents. -/
structure ReaderConfig where
  pc : ReaderPC
  done : Bool
  queue : List WSMessage

inductive REvent where
  | cancelFire : REvent
  | sched : REvent
  | recvFrame : Option WSMessage → REvent
  | recvErr : REvent

/-- One labelled step of a reader task.  `cancelFire` sets the `done` flag
whatever the task is doing.  `sched` runs the top-of-loop `select`: with
`done` set the task returns, otherwise it falls into the `default` arm and
blocks in `ReadMessage`.  A `ReadMessage` return is only consumed while
blocked: a frame runs the decode/filter/push body and loops; an error
returns. -/
def readerStep (cfg : ReaderConfig) : REvent → ReaderConfig
  | .cancelFire => { cfg with done := true }
  | .sched =>
      match cfg.pc with
      | .checkDone =>
          if cfg.done then { cfg with pc := .exited }
          else { cfg with pc := .blockedRecv }
      | _ => cfg
  | .recvFrame d =>
      match cfg.pc with
      | .blockedRecv => { cfg with pc := .checkDone, queue := readerStepMsg cfg.queue d }
      | _ => cfg
  | .recvErr =>
      match cfg.pc with
      | .blockedRecv => { cfg with pc := .exited }
      | _ => cfg

/-- Run a reader task through a sequence of events. -/
def readerRun (cfg : ReaderConfig) (evs : List REvent) : ReaderConfig :=
  evs.foldl readerStep cfg

/-- A reader task starts at the top of its loop with `done` open (it is
spawned by `Connect` right after the queue is created empty). -/
def readerInit : ReaderConfig := ⟨.checkDone, false, []⟩

/-- Configurations a reader task can actually be in. -/
def ReaderReachable (cfg : ReaderConfig) : Prop :=
  ∃ evs, readerRun readerInit evs = cfg

/-- The cancellation-termination property claimed of the reader tasks: from
any reachable configuration, once the cancellation signal fires the task
terminates after finitely many scheduling steps alone — with no further
`ReadMessage` return (no inbound frame, no read error: in particular the
socket's close may have failed and delivered nothing). -/
def ReaderCancelTerminates : Prop :=
  ∀ cfg : ReaderConfig, ReaderReachable cfg →
    ∃ k, (readerRun (readerStep cfg .cancelFire) (List.replicate k .sched)).pc = .exited

/-! ## Helper lemmas -/

theorem chanTrySend_foldl (ms : List WSMessage) :
    ∀ q : List WSMessage, q.length ≤ inboundQueueBound →
      ms.foldl chanTrySend q = q ++ ms.take (inboundQueueBound - q.length) := by
  induction ms with
  | nil => intro q h; simp
  | cons m ms ih =>
      intro q h
      by_cases hq : q.length < inboundQueueBound
      · have hstep : chanTrySend q m = q ++ [m] := by simp [chanTrySend, hq]
        rw [List.foldl_cons, hstep, ih (q ++ [m]) (by simp; omega)]
        have hlen : (q ++ [m]).length = q.length + 1 := by simp
        rw [hlen]
        have hsub : inboundQueueBound - q.length
            = (inboundQueueBound - (q.length + 1)) + 1 := by omega
        rw [hsub, List.take_succ_cons, List.append_assoc, List.singleton_append]
      · have hq' : q.length = inboundQueueBound := by omega
        have hstep : chanTrySend q m = q := by simp [chanTrySend, hq]
        rw [List.foldl_cons, hstep, ih q h, hq']
        simp

theorem readerStepMsg_no_heartbeat :
    ∀ (ds : List (Option WSMessage)) (q : List WSMessage),
      (∀ m ∈ q, m.heartbeat = none) →
      ∀ m ∈ List.foldl readerStepMsg q ds, m.heartbeat = none := by
  intro ds
  induction ds with
  | nil => intro q hq m hm; exact hq m hm
  | cons d ds ih =>
      intro q hq m hm
      refine ih (readerStepMsg q d) ?_ m hm
      intro x hx
      match d with
      | none => exact hq x hx
      | some msg =>
          by_cases hh : msg.heartbeat.isSome
          · simp only [readerStepMsg, hh, if_pos] at hx
            exact hq x hx
          · simp only [readerStepMsg, hh, if_neg, Bool.false_eq_true,
              not_false_eq_true, chanTrySend] at hx
            split at hx
            · rcases List.mem_append.mp hx with h | h
              · exact hq x h
              · have hxm : x = msg := List.mem_singleton.mp h
                subst hxm
                exact Option.not_isSome_iff_eq_none.mp hh
            · exact hq x hx

/-! ## Claim theorems -/

/-- C1: the Inbound Queue is bounded at 100 messages; the reader tasks'
push (a total function — it never blocks) keeps the queue size at or below
the bound from any in-bound state, and with no consumer draining, pushing a
sequence of messages into the fresh empty queue retains exactly the first
100 in arrival order and drops the rest — in particular, of 101 arriving
messages, #1–#100 are retained in order and #101 is dropped. -/
theorem c1_inbound_queue_bounded :
    (∀ (q : List WSMessage) (m : WSMessage),
        q.length ≤ inboundQueueBound →
        (chanTrySend q m).length ≤ inboundQueueBound) ∧
    (∀ ms : List WSMessage,
        ms.foldl chanTrySend [] = ms.take inboundQueueBound) := by
  constructor
  · intro q m h
    by_cases hq : q.length < inboundQueueBound <;> simp [chanTrySend, hq] <;> omega
  · intro ms
    simpa using chanTrySend_foldl ms [] (by simp)

/-- Witness for C1 at concrete inputs: a full queue of 100 messages stays at
100 on a further push, and delivering 101 messages into the empty queue
keeps exactly the first 100. -/
theorem c1_inbound_queue_bounded_witness :
    (chanTrySend (List.replicate 100 WSMessage.zero) WSMessage.zero).length
        ≤ inboundQueueBound ∧
    (List.replicate 101 WSMessage.zero).foldl chanTrySend []
        = (List.replicate 101 WSMessage.zero).take inboundQueueBound :=
  ⟨c1_inbound_queue_bounded.1 _ _ (by simp [inboundQueueBound]),
   c1_inbound_queue_bounded.2 _⟩

/-- C2: for every sequence of frames processed by a reader task (each frame
either failing to decode or decoding to a message), no message whose
heartbeat variant is populated is ever pushed, so the queue built from the
fresh empty queue contains zero heartbeat messages at all times. -/
theorem c2_no_heartbeat_reaches_queue :
    ∀ (ds : List (Option WSMessage)) (m : WSMessage),
      m ∈ readerDeliverAll [] ds → m.heartbeat = none := by
  intro ds m hm
  exact readerStepMsg_no_heartbeat ds [] (by simp) m hm

/-- Witness for C2 at a concrete input: a single decoded non-heartbeat
message lands in the queue and indeed carries no heartbeat. -/
theorem c2_no_heartbeat_reaches_queue_witness :
    WSMessage.zero.heartbeat = none :=
  c2_no_heartbeat_reaches_queue [some WSMessage.zero] WSMessage.zero
    (by simp [readerDeliverAll, readerStepMsg, chanTrySend, WSMessage.zero,
          inboundQueueBound])

/-- Frames so far written on the private socket (empty when absent). -/
def privateSent (c : WSClient) : List JValue :=
  match c.privateConn with
  | some cn => cn.sent
  | none => []

/-- Frames so far written on the markets socket (empty when absent). -/
def marketsSent (c : WSClient) : List JValue :=
  match c.marketsConn with
  | some cn => cn.sent
  | none => []

/-- C3: every subscribe call writes only on the socket the kind maps to.
The three private kinds (order, position, account-balance) leave the markets
socket untouched and, when they succeed, append exactly their subscribe
frame to the private socket; the three markets kinds (market-data,
market-data-lite, trade) leave the private socket untouched and, when they
succeed, append exactly their subscribe frame to the markets socket. -/
theorem c3_subscribe_routing :
    (∀ (c : WSClient) (slugs : List String),
        (SubscribeOrders c slugs).2.marketsConn = c.marketsConn ∧
        ∀ rid, (SubscribeOrders c slugs).1 = .ok rid →
          privateSent (SubscribeOrders c slugs).2 = privateSent c
            ++ [encodeWSSubscribeRequest ⟨⟨rid, SubscriptionTypeOrder, slugs, false⟩⟩]) ∧
    (∀ (c : WSClient) (slugs : List String),
        (SubscribePositions c slugs).2.marketsConn = c.marketsConn ∧
        ∀ rid, (SubscribePositions c slugs).1 = .ok rid →
          privateSent (SubscribePositions c slugs).2 = privateSent c
            ++ [encodeWSSubscribeRequest ⟨⟨rid, SubscriptionTypePosition, slugs, false⟩⟩]) ∧
    (∀ c : WSClient,
        (SubscribeBalances c).2.marketsConn = c.marketsConn ∧
        ∀ rid, (SubscribeBalances c).1 = .ok rid →
          privateSent (SubscribeBalances c).2 = privateSent c
            ++ [encodeWSSubscribeRequest ⟨⟨rid, SubscriptionTypeAccountBalance, [], false⟩⟩]) ∧
    (∀ (c : WSClient) (slugs : List String) (deb : Bool),
        (SubscribeMarketData c slugs deb).2.privateConn = c.privateConn ∧
        ∀ rid, (SubscribeMarketData c slugs deb).1 = .ok rid →
          marketsSent (SubscribeMarketData c slugs deb).2 = marketsSent c
            ++ [encodeWSSubscribeRequest ⟨⟨rid, SubscriptionTypeMarketData, slugs, deb⟩⟩]) ∧
    (∀ (c : WSClient) (slugs : List String),
        (SubscribeMarketDataLite c slugs).2.privateConn = c.privateConn ∧
        ∀ rid, (SubscribeMarketDataLite c slugs).1 = .ok rid →
          marketsSent (SubscribeMarketDataLite c slugs).2 = marketsSent c
            ++ [encodeWSSubscribeRequest ⟨⟨rid, SubscriptionTypeMarketDataLite, slugs, false⟩⟩]) ∧
    (∀ (c : WSClient) (slugs : List String),
        (SubscribeTrades c slugs).2.privateConn = c.privateConn ∧
        ∀ rid, (SubscribeTrades c slugs).1 = .ok rid →
          marketsSent (SubscribeTrades c slugs).2 = marketsSent c
            ++ [encodeWSSubscribeRequest ⟨⟨rid, SubscriptionTypeTrade, slugs, false⟩⟩]) := by
  refine ⟨?_, ?_, ?_, ?_, ?_, ?_⟩
  · intro c slugs
    cases hp : c.privateConn with
    | none =>
        constructor
        · simp [SubscribeOrders, nextRequestID, sendPrivate, hp]
        · intro rid hrid
          simp [SubscribeOrders, nextRequestID, sendPrivate, hp] at hrid
    | some cn =>
        constructor
        · simp [SubscribeOrders, nextRequestID, sendPrivate, hp]
        · intro rid hrid
          simp only [SubscribeOrders, nextRequestID, sendPrivate, hp,
            Except.ok.injEq] at hrid
          subst hrid
          simp [SubscribeOrders, nextRequestID, sendPrivate, hp, privateSent]
  · intro c slugs
    cases hp : c.privateConn with
    | none =>
        constructor
        · simp [SubscribePositions, nextRequestID, sendPrivate, hp]
        · intro rid hrid
          simp [SubscribePositions, nextRequestID, sendPrivate, hp] at hrid
    | some cn =>
        constructor
        · simp [SubscribePositions, nextRequestID, sendPrivate, hp]
        · intro rid hrid
          simp only [SubscribePositions, nextRequestID, sendPrivate, hp,
            Except.ok.injEq] at hrid
          subst hrid
          simp [SubscribePositions, nextRequestID, sendPrivate, hp, privateSent]
  · intro c
    cases hp : c.privateConn with
    | none =>
        constructor
        · simp [SubscribeBalances, nextRequestID, sendPrivate, hp]
        · intro rid hrid
          simp [SubscribeBalances, nextRequestID, sendPrivate, hp] at hrid
    | some cn =>
        constructor
        · simp [SubscribeBalances, nextRequestID, sendPrivate, hp]
        · intro rid hrid
          simp only [SubscribeBalances, nextRequestID, sendPrivate, hp,
            Except.ok.injEq] at hrid
          subst hrid
          simp [SubscribeBalances, nextRequestID, sendPrivate, hp, privateSent]
  · intro c slugs deb
    cases hp : c.marketsConn with
    | none =>
        constructor
        · simp [SubscribeMarketData, nextRequestID, sendMarkets, hp]
        · intro rid hrid
          simp [SubscribeMarketData, nextRequestID, sendMarkets, hp] at hrid
    | some cn =>
        constructor
        · simp [SubscribeMarketData, nextRequestID, sendMarkets, hp]
        · intro rid hrid
          simp only [SubscribeMarketData, nextRequestID, sendMarkets, hp,
            Except.ok.injEq] at hrid
          subst hrid
          simp [SubscribeMarketData, nextRequestID, sendMarkets, hp, marketsSent]
  · intro c slugs
    cases hp : c.marketsConn with
    | none =>
        constructor
        · simp [SubscribeMarketDataLite, nextRequestID, sendMarkets, hp]
        · intro rid hrid
          simp [SubscribeMarketDataLite, nextRequestID, sendMarkets, hp] at hrid
    | some cn =>
        constructor
        · simp [SubscribeMarketDataLite, nextRequestID, sendMarkets, hp]
        · intro rid hrid
          simp only [SubscribeMarketDataLite, nextRequestID, sendMarkets, hp,
            Except.ok.injEq] at hrid
          subst hrid
          simp [SubscribeMarketDataLite, nextRequestID, sendMarkets, hp, marketsSent]
  · intro c slugs
    cases hp : c.marketsConn with
    | none =>
        constructor
        · simp [SubscribeTrades, nextRequestID, sendMarkets, hp]
        · intro rid hrid
          simp [SubscribeTrades, nextRequestID, sendMarkets, hp] at hrid
    | some cn =>
        constructor
        · simp [SubscribeTrades, nextRequestID, sendMarkets, hp]
        · intro rid hrid
          simp only [SubscribeTrades, nextRequestID, sendMarkets, hp,
            Except.ok.injEq] at hrid
          subst hrid
          simp [SubscribeTrades, nextRequestID, sendMarkets, hp, marketsSent]

/-- Witness for C3 at a concrete input: on a freshly connected client,
subscribing to orders for `["m1"]` leaves the markets socket untouched and
writes exactly the order-subscribe frame on the private socket. -/
theorem c3_subscribe_routing_witness :
    (SubscribeOrders (Connect NewWSClient true true).2 ["m1"]).2.marketsConn
        = (Connect NewWSClient true true).2.marketsConn ∧
    privateSent (SubscribeOrders (Connect NewWSClient true true).2 ["m1"]).2
        = privateSent (Connect NewWSClient true true).2
          ++ [encodeWSSubscribeRequest
                ⟨⟨"order-1", SubscriptionTypeOrder, ["m1"], false⟩⟩] :=
  ⟨(c3_subscribe_routing.1 (Connect NewWSClient true true).2 ["m1"]).1,
   (c3_subscribe_routing.1 (Connect NewWSClient true true).2 ["m1"]).2
     "order-1" (by rfl)⟩

/-- C4: if during `Connect` the private dial succeeds and the markets dial
fails, then `Connect` returns an error, the private socket has been closed
before the return, and the session does not report connected. -/
theorem c4_connect_rollback :
    ∀ c : WSClient, c.connected = false →
      (Connect c true false).1.isSome = true ∧
      (∃ cn, (Connect c true false).2.privateConn = some cn
          ∧ cn.closeCalled = true) ∧
      (Connect c true false).2.IsConnected = false := by
  intro c hc
  refine ⟨by simp [Connect], ?_, ?_⟩
  · exact ⟨{ Conn.fresh with closeCalled := true }, by simp [Connect], rfl⟩
  · simp [Connect, WSClient.IsConnected, hc]

/-- Witness for C4 at a concrete input: a fresh client whose private dial
succeeds and whose markets dial fails. -/
theorem c4_connect_rollback_witness :
    (Connect NewWSClient true false).1.isSome = true ∧
    (∃ cn, (Connect NewWSClient true false).2.privateConn = some cn
        ∧ cn.closeCalled = true) ∧
    (Connect NewWSClient true false).2.IsConnected = false :=
  c4_connect_rollback NewWSClient (by rfl)

/-- Splitting at a separator that occurs in neither prefix is unambiguous. -/
theorem ne_mem_split {α : Type} (sep : α) :
    ∀ (xs ys as bs : List α), sep ∉ xs → sep ∉ ys →
      xs ++ sep :: as = ys ++ sep :: bs → xs = ys ∧ as = bs := by
  intro xs
  induction xs with
  | nil =>
      intro ys as bs _ hy h
      cases ys with
      | nil => simpa using h
      | cons y ys =>
          exfalso
          simp only [List.nil_append, List.cons_append, List.cons.injEq] at h
          exact hy (h.1 ▸ List.mem_cons_self y ys)
  | cons x xs ih =>
      intro ys as bs hx hy h
      cases ys with
      | nil =>
          exfalso
          simp only [List.nil_append, List.cons_append, List.cons.injEq] at h
          exact hx (h.1 ▸ List.mem_cons_self x xs)
      | cons y ys =>
          simp only [List.cons_append, List.cons.injEq] at h
          have := ih ys as bs (fun hm => hx (List.mem_cons_of_mem x hm))
            (fun hm => hy (List.mem_cons_of_mem y hm)) h.2
          exact ⟨by rw [h.1, this.1], this.2⟩

/-- Two rendered request-ids with dash-free prefixes agree only if their
counter bit patterns agree: the first dash is the prefix separator, and the
rendered counter is then recovered by `int64Decimal` injectivity. -/
theorem requestID_render_inj (p₁ p₂ : String) (b₁ b₂ : Nat)
    (hp₁ : '-' ∉ p₁.data) (hp₂ : '-' ∉ p₂.data)
    (h₁ : b₁ < int64Modulus) (h₂ : b₂ < int64Modulus)
    (heq : p₁ ++ "-" ++ int64Decimal b₁ = p₂ ++ "-" ++ int64Decimal b₂) :
    b₁ = b₂ := by
  have hdash : ("-" : String).data = ['-'] := rfl
  have hd : p₁.data ++ '-' :: (int64Decimal b₁).data
      = p₂.data ++ '-' :: (int64Decimal b₂).data := by
    have := congrArg String.data heq
    simpa [String.data_append, hdash] using this
  have hsplit := ne_mem_split '-' _ _ _ _ hp₁ hp₂ hd
  exact int64Decimal_inj h₁ h₂ (String.ext hsplit.2)

/-- The six prefixes used by the subscribe calls. -/
def subscribePrefixes : List String :=
  ["order", "position", "balance", "marketdata", "marketdatalite", "trade"]

theorem subscribePrefixes_no_dash :
    ∀ p ∈ subscribePrefixes, '-' ∉ p.data := by
  decide

/-- One of the six request-id-allocating subscribe calls, with its
arguments. -/
inductive SubscribeCall where
  | orders : List String → SubscribeCall
  | positions : List String → SubscribeCall
  | balances : SubscribeCall
  | marketData : List String → Bool → SubscribeCall
  | marketDataLite : List String → SubscribeCall
  | trades : List String → SubscribeCall

/-- Dispatch a subscribe call on the session. -/
def runSubscribeCall (c : WSClient) :
    SubscribeCall → Except String String × WSClient
  | .orders slugs => SubscribeOrders c slugs
  | .positions slugs => SubscribePositions c slugs
  | .balances => SubscribeBalances c
  | .marketData slugs deb => SubscribeMarketData c slugs deb
  | .marketDataLite slugs => SubscribeMarketDataLite c slugs
  | .trades slugs => SubscribeTrades c slugs

/-- The results of a sequence of subscribe calls on one session instance. -/
def runSubscribeCalls : WSClient → List SubscribeCall → List (Except String String)
  | _, [] => []
  | c, k :: ks =>
      (runSubscribeCall c k).1 :: runSubscribeCalls (runSubscribeCall c k).2 ks

/-- The request-ids actually returned (successful calls only; failed calls
return an error, not an id). -/
def okRequestIDs (rs : List (Except String String)) : List String :=
  rs.filterMap fun r =>
    match r with
    | .ok rid => some rid
    | .error _ => none

/-- Every subscribe call advances the session counter by exactly one,
whether or not its send succeeds. -/
theorem runSubscribeCall_requestID (c : WSClient) (k : SubscribeCall) :
    (runSubscribeCall c k).2.requestID = (c.requestID + 1) % int64Modulus := by
  cases k with
  | orders slugs =>
      cases hp : c.privateConn <;>
        simp [runSubscribeCall, SubscribeOrders, nextRequestID, sendPrivate, hp]
  | positions slugs =>
      cases hp : c.privateConn <;>
        simp [runSubscribeCall, SubscribePositions, nextRequestID, sendPrivate, hp]
  | balances =>
      cases hp : c.privateConn <;>
        simp [runSubscribeCall, SubscribeBalances, nextRequestID, sendPrivate, hp]
  | marketData slugs deb =>
      cases hp : c.marketsConn <;>
        simp [runSubscribeCall, SubscribeMarketData, nextRequestID, sendMarkets, hp]
  | marketDataLite slugs =>
      cases hp : c.marketsConn <;>
        simp [runSubscribeCall, SubscribeMarketDataLite, nextRequestID, sendMarkets, hp]
  | trades slugs =>
      cases hp : c.marketsConn <;>
        simp [runSubscribeCall, SubscribeTrades, nextRequestID, sendMarkets, hp]

/-- A successful subscribe call returns the id rendered from one of the six
prefixes and the incremented counter. -/
theorem runSubscribeCall_ok (c : WSClient) (k : SubscribeCall) (rid : String)
    (h : (runSubscribeCall c k).1 = .ok rid) :
    ∃ p ∈ subscribePrefixes,
      rid = p ++ "-" ++ int64Decimal ((c.requestID + 1) % int64Modulus) := by
  cases k with
  | orders slugs =>
      refine ⟨"order", by simp [subscribePrefixes], ?_⟩
      cases hp : c.privateConn with
      | none => simp [runSubscribeCall, SubscribeOrders, nextRequestID, sendPrivate, hp] at h
      | some cn =>
          simp [runSubscribeCall, SubscribeOrders, nextRequestID, sendPrivate, hp] at h
          exact h.symm
  | positions slugs =>
      refine ⟨"position", by simp [subscribePrefixes], ?_⟩
      cases hp : c.privateConn with
      | none => simp [runSubscribeCall, SubscribePositions, nextRequestID, sendPrivate, hp] at h
      | some cn =>
          simp [runSubscribeCall, SubscribePositions, nextRequestID, sendPrivate, hp] at h
          exact h.symm
  | balances =>
      refine ⟨"balance", by simp [subscribePrefixes], ?_⟩
      cases hp : c.privateConn with
      | none => simp [runSubscribeCall, SubscribeBalances, nextRequestID, sendPrivate, hp] at h
      | some cn =>
          simp [runSubscribeCall, SubscribeBalances, nextRequestID, sendPrivate, hp] at h
          exact h.symm
  | marketData slugs deb =>
      refine ⟨"marketdata", by simp [subscribePrefixes], ?_⟩
      cases hp : c.marketsConn with
      | none => simp [runSubscribeCall, SubscribeMarketData, nextRequestID, sendMarkets, hp] at h
      | some cn =>
          simp [runSubscribeCall, SubscribeMarketData, nextRequestID, sendMarkets, hp] at h
          exact h.symm
  | marketDataLite slugs =>
      refine ⟨"marketdatalite", by simp [subscribePrefixes], ?_⟩
      cases hp : c.marketsConn with
      | none => simp [runSubscribeCall, SubscribeMarketDataLite, nextRequestID, sendMarkets, hp] at h
      | some cn =>
          simp [runSubscribeCall, SubscribeMarketDataLite, nextRequestID, sendMarkets, hp] at h
          exact h.symm
  | trades slugs =>
      refine ⟨"trade", by simp [subscribePrefixes], ?_⟩
      cases hp : c.marketsConn with
      | none => simp [runSubscribeCall, SubscribeTrades, nextRequestID, sendMarkets, hp] at h
      | some cn =>
          simp [runSubscribeCall, SubscribeTrades, nextRequestID, sendMarkets, hp] at h
          exact h.symm

/-- Each returned request-id in a run of subscribe calls is rendered from a
prefix and the wrapped counter value at its call position. -/
theorem okRequestIDs_mem :
    ∀ (ks : List SubscribeCall) (c : WSClient) (rid : String),
      rid ∈ okRequestIDs (runSubscribeCalls c ks) →
      ∃ p i, p ∈ subscribePrefixes ∧ 1 ≤ i ∧ i ≤ ks.length ∧
        rid = p ++ "-" ++ int64Decimal ((c.requestID + i) % int64Modulus) := by
  intro ks
  induction ks with
  | nil => intro c rid h; simp [runSubscribeCalls, okRequestIDs] at h
  | cons k ks ih =>
      intro c rid h
      simp only [runSubscribeCalls, okRequestIDs, List.filterMap_cons] at h
      cases hr : (runSubscribeCall c k).1 with
      | error e =>
          rw [hr] at h
          simp only [] at h
          obtain ⟨p, i, hp, hi1, hi2, hrid⟩ := ih _ _ h
          rw [runSubscribeCall_requestID] at hrid
          refine ⟨p, i + 1, hp, by omega,
            by simp only [List.length_cons]; omega, ?_⟩
          rw [hrid]
          have hmod : ((c.requestID + 1) % int64Modulus + i) % int64Modulus
              = (c.requestID + (i + 1)) % int64Modulus := by
            simp only [int64Modulus]
            omega
          rw [hmod]
      | ok rid₀ =>
          rw [hr] at h
          simp only [List.mem_cons] at h
          rcases h with h | h
          · obtain ⟨p, hp, hrid⟩ := runSubscribeCall_ok c k rid₀ hr
            exact ⟨p, 1, hp, le_refl 1,
              by simp only [List.length_cons]; omega, h ▸ hrid⟩
          · obtain ⟨p, i, hp, hi1, hi2, hrid⟩ := ih _ _ h
            rw [runSubscribeCall_requestID] at hrid
            refine ⟨p, i + 1, hp, by omega,
              by simp only [List.length_cons]; omega, ?_⟩
            rw [hrid]
            have hmod : ((c.requestID + 1) % int64Modulus + i) % int64Modulus
                = (c.requestID + (i + 1)) % int64Modulus := by
              simp only [int64Modulus]
              omega
            rw [hmod]

/-- The session state after a sequence of subscribe calls. -/
def runSubscribeCallsState : WSClient → List SubscribeCall → WSClient
  | c, [] => c
  | c, k :: ks => runSubscribeCallsState (runSubscribeCall c k).2 ks

theorem runSubscribeCalls_append :
    ∀ (ks₁ ks₂ : List SubscribeCall) (c : WSClient),
      runSubscribeCalls c (ks₁ ++ ks₂)
        = runSubscribeCalls c ks₁
          ++ runSubscribeCalls (runSubscribeCallsState c ks₁) ks₂ := by
  intro ks₁
  induction ks₁ with
  | nil => intro ks₂ c; simp [runSubscribeCalls, runSubscribeCallsState]
  | cons k ks ih =>
      intro ks₂ c
      simp only [List.cons_append, runSubscribeCalls, runSubscribeCallsState,
        List.cons.injEq, true_and]
      exact ih ks₂ _

theorem okRequestIDs_append (rs₁ rs₂ : List (Except String String)) :
    okRequestIDs (rs₁ ++ rs₂) = okRequestIDs rs₁ ++ okRequestIDs rs₂ := by
  simp [okRequestIDs]

/-- A successful first call's id is among the run's returned ids. -/
theorem head_ok_mem (c : WSClient) (k : SubscribeCall)
    (ks : List SubscribeCall) (rid : String)
    (h : (runSubscribeCall c k).1 = .ok rid) :
    rid ∈ okRequestIDs (runSubscribeCalls c (k :: ks)) := by
  simp only [runSubscribeCalls, okRequestIDs, List.filterMap_cons, h]
  exact List.mem_cons_self _ _

/-- Running `n` balance subscriptions on a session with a private socket
keeps the socket and advances the counter by `n`, wrapped. -/
theorem balances_state :
    ∀ (n : Nat) (c : WSClient), c.privateConn.isSome = true →
      c.requestID < int64Modulus →
      (runSubscribeCallsState c
          (List.replicate n SubscribeCall.balances)).privateConn.isSome
        = true ∧
      (runSubscribeCallsState c
          (List.replicate n SubscribeCall.balances)).requestID
        = (c.requestID + n) % int64Modulus := by
  intro n
  induction n with
  | zero =>
      intro c h hb
      refine ⟨by simpa [runSubscribeCallsState] using h, ?_⟩
      simp [runSubscribeCallsState, Nat.mod_eq_of_lt hb]
  | succ m ih =>
      intro c h hb
      rw [List.replicate_succ]
      simp only [runSubscribeCallsState]
      have h1 : (runSubscribeCall c SubscribeCall.balances).2.privateConn.isSome
          = true := by
        cases hp : c.privateConn with
        | none => rw [hp] at h; simp at h
        | some cn =>
            simp [runSubscribeCall, SubscribeBalances, nextRequestID,
              sendPrivate, hp]
      have h2 := runSubscribeCall_requestID c SubscribeCall.balances
      have h3 : (runSubscribeCall c SubscribeCall.balances).2.requestID
          < int64Modulus := by
        rw [h2]
        exact Nat.mod_lt _ (by simp only [int64Modulus]; omega)
      obtain ⟨ha, hq⟩ := ih _ h1 h3
      refine ⟨ha, ?_⟩
      rw [hq, h2]
      simp only [int64Modulus]
      omega

/-- A balance subscription on a session with a private socket succeeds and
returns the id rendered from the wrapped incremented counter. -/
theorem SubscribeBalances_fst (c : WSClient) (cn : Conn)
    (hp : c.privateConn = some cn) :
    (SubscribeBalances c).1
      = .ok ("balance" ++ "-"
          ++ int64Decimal ((c.requestID + 1) % int64Modulus)) := by
  simp [SubscribeBalances, nextRequestID, sendPrivate, hp]

/-- C5 fails on the code as universally stated: the request-id counter is a
Go `int`, which wraps modulo 2^64, so request-ids repeat once the counter
cycles.  Concretely, on a freshly connected session, a run of 2^64 + 1
successful balance subscriptions returns a duplicated id: call 1 and call
2^64 + 1 both return the id rendered from counter value 1. -/
theorem c5_request_ids_distinct_counterexample :
    ¬ (okRequestIDs (runSubscribeCalls (Connect NewWSClient true true).2
          (List.replicate (int64Modulus + 1)
            SubscribeCall.balances))).Nodup := by
  intro hnd
  rw [List.replicate_succ', runSubscribeCalls_append, okRequestIDs_append]
    at hnd
  obtain ⟨hs_p, hs_r⟩ := balances_state int64Modulus
    (Connect NewWSClient true true).2 (by rfl) (by decide)
  have hs0 : (runSubscribeCallsState (Connect NewWSClient true true).2
      (List.replicate int64Modulus SubscribeCall.balances)).requestID = 0 := by
    rw [hs_r, show (Connect NewWSClient true true).2.requestID = 0 from rfl]
    simp only [int64Modulus]
  cases hp : (runSubscribeCallsState (Connect NewWSClient true true).2
      (List.replicate int64Modulus SubscribeCall.balances)).privateConn with
  | none => rw [hp] at hs_p; simp at hs_p
  | some cn =>
      have hone : ((0 : Nat) + 1) % int64Modulus = 1 := by
        simp only [int64Modulus]
      have hlast : (runSubscribeCall (runSubscribeCallsState
          (Connect NewWSClient true true).2
          (List.replicate int64Modulus SubscribeCall.balances))
          SubscribeCall.balances).1 = .ok "balance-1" := by
        rw [show runSubscribeCall (runSubscribeCallsState
            (Connect NewWSClient true true).2
            (List.replicate int64Modulus SubscribeCall.balances))
            SubscribeCall.balances
          = SubscribeBalances (runSubscribeCallsState
            (Connect NewWSClient true true).2
            (List.replicate int64Modulus SubscribeCall.balances)) from rfl]
        rw [SubscribeBalances_fst _ cn hp, hs0, hone]
        rfl
      have hlastIDs : okRequestIDs (runSubscribeCalls (runSubscribeCallsState
          (Connect NewWSClient true true).2
          (List.replicate int64Modulus SubscribeCall.balances))
          [SubscribeCall.balances]) = ["balance-1"] := by
        simp [runSubscribeCalls, okRequestIDs, hlast]
      have hhead : ("balance-1" : String) ∈ okRequestIDs (runSubscribeCalls
          (Connect NewWSClient true true).2
          (List.replicate int64Modulus SubscribeCall.balances)) := by
        have hM : int64Modulus = 18446744073709551615 + 1 := by
          simp only [int64Modulus]
        rw [hM, List.replicate_succ]
        exact head_ok_mem _ _ _ _ (by rfl)
      rw [hlastIDs] at hnd
      obtain ⟨-, -, hdisj⟩ := List.nodup_append.mp hnd
      exact hdisj hhead (List.mem_singleton_self _)

/-- C5 (amended): across any sequence of at most 2^64 request-id-allocating
subscribe calls on one session instance (so the wrapping `int` counter does
not complete a cycle), the request-ids returned by the successful calls —
a failed call returns an error, not an id — are pairwise distinct, and the
session counter advances by one modulo 2^64 on every call, successful or
not. -/
theorem c5_request_ids_distinct_amended :
    (∀ (c : WSClient) (ks : List SubscribeCall),
        ks.length ≤ int64Modulus →
        (okRequestIDs (runSubscribeCalls c ks)).Nodup) ∧
    (∀ (c : WSClient) (k : SubscribeCall),
        (runSubscribeCall c k).2.requestID
          = (c.requestID + 1) % int64Modulus) := by
  refine ⟨?_, runSubscribeCall_requestID⟩
  intro c ks
  induction ks generalizing c with
  | nil => intro _; simp [runSubscribeCalls, okRequestIDs]
  | cons k ks ih =>
      intro hlen
      simp only [runSubscribeCalls, okRequestIDs, List.filterMap_cons]
      cases hr : (runSubscribeCall c k).1 with
      | error e =>
          exact ih _ (by simp only [List.length_cons] at hlen; omega)
      | ok rid₀ =>
          refine List.nodup_cons.mpr
            ⟨?_, ih _ (by simp only [List.length_cons] at hlen; omega)⟩
          intro hmem₀
          obtain ⟨p, i, hp, hi1, hi2, hrid⟩ := okRequestIDs_mem ks _ _ hmem₀
          obtain ⟨q, hq, hqrid⟩ := runSubscribeCall_ok c k rid₀ hr
          rw [runSubscribeCall_requestID] at hrid
          have hbeq := requestID_render_inj q p _ _
            (subscribePrefixes_no_dash q hq) (subscribePrefixes_no_dash p hp)
            (Nat.mod_lt _ (by simp only [int64Modulus]; omega))
            (Nat.mod_lt _ (by simp only [int64Modulus]; omega))
            (hqrid.symm.trans hrid)
          simp only [List.length_cons] at hlen
          simp only [int64Modulus] at hbeq hlen
          omega

/-- Witness for the amended C5 at a concrete input: two successful calls on
a freshly connected session (well under the 2^64 bound) return distinct
request-ids. -/
theorem c5_request_ids_distinct_amended_witness :
    (okRequestIDs (runSubscribeCalls (Connect NewWSClient true true).2
        [SubscribeCall.balances, SubscribeCall.orders ["m1"]])).Nodup :=
  c5_request_ids_distinct_amended.1 (Connect NewWSClient true true).2
    [SubscribeCall.balances, SubscribeCall.orders ["m1"]] (by decide)

theorem takeWhile_append_of_all {α : Type} (p : α → Bool) :
    ∀ (xs ys : List α), (∀ a ∈ xs, p a = true) →
      (xs ++ ys).takeWhile p = xs ++ ys.takeWhile p := by
  intro xs ys
  induction xs with
  | nil => intro _; simp
  | cons x xs ih =>
      intro h
      simp only [List.cons_append, List.takeWhile_cons,
        h x (List.mem_cons_self x xs), if_true]
      rw [ih (fun a ha => h a (List.mem_cons_of_mem x ha))]

/-- C6: the signed message is the exact concatenation of the decimal
millisecond timestamp, the HTTP method, and the URL path with the query
string (and fragment) excluded — no separators; concretely, signing GET
`/v1/portfolio/positions?limit=10` at timestamp 1704067200000 signs exactly
`"1704067200000GET/v1/portfolio/positions"`. -/
theorem c6_sign_message :
    (signMessage 1704067200000 "GET" "/v1/portfolio/positions?limit=10"
        = "1704067200000GET/v1/portfolio/positions") ∧
    (∀ (t : Nat) (method p query : String),
        '?' ∉ p.data → '#' ∉ p.data →
        signMessage t method (p ++ "?" ++ query)
          = natDecimal t ++ method ++ p) := by
  constructor
  · decide
  · intro t method p query hq hh
    have hdata : (p ++ "?" ++ query).data = p.data ++ '?' :: query.data := by
      simp [String.data_append, show ("?" : String).data = ['?'] from rfl]
    unfold signMessage urlPath urlPathChars
    rw [hdata]
    have hall1 : ∀ a ∈ p.data, (a != '#') = true := by
      intro a ha
      exact bne_iff_ne.mpr (fun h => hh (h ▸ ha))
    have hall2 : ∀ a ∈ p.data, (a != '?') = true := by
      intro a ha
      exact bne_iff_ne.mpr (fun h => hq (h ▸ ha))
    rw [takeWhile_append_of_all _ _ _ hall1]
    have hq1 : ('?' :: query.data).takeWhile (fun c => c != '#')
        = '?' :: query.data.takeWhile (fun c => c != '#') := by
      simp [List.takeWhile_cons]
    rw [hq1, takeWhile_append_of_all _ _ _ hall2]
    have hq2 : (('?' : Char) :: query.data.takeWhile (fun c => c != '#')).takeWhile
        (fun c => c != '?') = [] := by
      simp [List.takeWhile_cons]
    rw [hq2, List.append_nil]

/-- Witness for C6's universal part at a concrete input: a query string on a
plain path is excluded from the signed message. -/
theorem c6_sign_message_witness :
    signMessage 5 "GET" ("/x" ++ "?" ++ "limit=10")
      = natDecimal 5 ++ "GET" ++ "/x" :=
  c6_sign_message.2 5 "GET" "/x" "limit=10" (by decide) (by decide)

/-- C7: encoding the Subscription Request that `SubscribeMarketData` builds
for market ids `["m1"]` with debounce `true` (the market-data kind, wire
integer 1), then decoding the produced JSON frame, recovers a subscription
whose `subscription_type` is 1, whose `market_slugs` is `["m1"]`, and whose
`responses_debounced` is `true`.  Stated on the frame the client actually
writes on the markets socket of a freshly connected session. -/
theorem c7_subscription_roundtrip :
    (marketsSent (SubscribeMarketData (Connect NewWSClient true true).2
        ["m1"] true).2).map decodeWSSubscribeRequest
      = [some ⟨⟨"marketdata-1", 1, ["m1"], true⟩⟩] := by
  decide

/-- C8: on a first call, `Close` signals the cancellation channel, invokes
close on both present sockets — the markets close regardless of the private
close failing — returns `none` when no per-socket close failed and otherwise
one aggregate error containing exactly the per-socket close errors that
occurred, and leaves the session reporting not connected. -/
theorem c8_close_aggregates :
    ∀ (c : WSClient) (privFail mktFail : Bool), c.doneClosed = false →
      ∃ err c', Close c privFail mktFail = .normal err c' ∧
        c'.doneClosed = true ∧
        (c.privateConn.isSome = true →
          ∃ cn, c'.privateConn = some cn ∧ cn.closeCalled = true) ∧
        (c.marketsConn.isSome = true →
          ∃ cn, c'.marketsConn = some cn ∧ cn.closeCalled = true) ∧
        (err.isSome = true ↔
          (c.privateConn.isSome = true ∧ privFail = true) ∨
          (c.marketsConn.isSome = true ∧ mktFail = true)) ∧
        (∀ es, err = some es →
          (("private close error" ∈ es) ↔
            (c.privateConn.isSome = true ∧ privFail = true)) ∧
          (("markets close error" ∈ es) ↔
            (c.marketsConn.isSome = true ∧ mktFail = true))) ∧
        c'.IsConnected = false := by
  intro c privFail mktFail hdone
  unfold Close
  rw [if_neg (by simp [hdone])]
  refine ⟨_, _, rfl, by simp, ?_, ?_, ?_, ?_, by simp [WSClient.IsConnected]⟩
  · intro hps
    cases hp : c.privateConn with
    | none => simp [hp] at hps
    | some cn => exact ⟨{ cn with closeCalled := true }, by simp [hp], rfl⟩
  · intro hms
    cases hm : c.marketsConn with
    | none => simp [hm] at hms
    | some cn => exact ⟨{ cn with closeCalled := true }, by simp [hm], rfl⟩
  · cases hp : c.privateConn <;> cases hm : c.marketsConn <;>
      cases privFail <;> cases mktFail <;> simp [hp, hm]
  · intro es hes
    cases hp : c.privateConn <;> cases hm : c.marketsConn <;>
      cases privFail <;> cases mktFail <;>
      simp [hp, hm] at hes <;> simp [hp, hm, ← hes]

/-- Witness for C8 at a concrete input: a freshly connected session whose
private close fails and whose markets close succeeds. -/
theorem c8_close_aggregates_witness :
    ∃ err c', Close (Connect NewWSClient true true).2 true false
        = .normal err c' ∧
      c'.doneClosed = true ∧
      ((Connect NewWSClient true true).2.privateConn.isSome = true →
        ∃ cn, c'.privateConn = some cn ∧ cn.closeCalled = true) ∧
      ((Connect NewWSClient true true).2.marketsConn.isSome = true →
        ∃ cn, c'.marketsConn = some cn ∧ cn.closeCalled = true) ∧
      (err.isSome = true ↔
        ((Connect NewWSClient true true).2.privateConn.isSome = true ∧
          true = true) ∨
        ((Connect NewWSClient true true).2.marketsConn.isSome = true ∧
          false = true)) ∧
      (∀ es, err = some es →
        (("private close error" ∈ es) ↔
          ((Connect NewWSClient true true).2.privateConn.isSome = true ∧
            true = true)) ∧
        (("markets close error" ∈ es) ↔
          ((Connect NewWSClient true true).2.marketsConn.isSome = true ∧
            false = true))) ∧
      c'.IsConnected = false :=
  c8_close_aggregates (Connect NewWSClient true true).2 true false (by rfl)

/-- C10: once `Close` has returned normally on a session, any further
`Close` call panics (Go's `close` on an already-closed channel), rather
than returning an error or being a no-op. -/
theorem c10_second_close_panics :
    ∀ (c : WSClient) (e₁ e₂ e₃ e₄ : Bool) (err : Option (List String))
      (c' : WSClient),
      Close c e₁ e₂ = .normal err c' → Close c' e₃ e₄ = .panicked := by
  intro c e₁ e₂ e₃ e₄ err c' h
  by_cases hdone : c.doneClosed
  · simp [Close, hdone] at h
  · unfold Close at h
    rw [if_neg hdone] at h
    simp only [CloseResult.normal.injEq] at h
    obtain ⟨-, h₂⟩ := h
    have hc' : c'.doneClosed = true := by rw [← h₂]
    simp [Close, hc']

/-- Witness for C10 at a concrete input: closing a fresh client once
succeeds; the resulting session state makes a second close panic. -/
theorem c10_second_close_panics_witness :
    Close { NewWSClient with doneClosed := true } false false = .panicked :=
  c10_second_close_panics NewWSClient false false false false none
    { NewWSClient with doneClosed := true } (by rfl)

/-- C9 fails on the code: the reader loop's `select` has a `default` arm, so
the `done` channel is only polled between receives.  A reader blocked inside
`ReadMessage` when the cancellation signal fires — and receiving nothing
afterwards because the socket's close failed and no frame arrives — stays
blocked forever: scheduling steps alone never let it exit.  The blocked
configuration is reachable (one scheduling step from the start). -/
theorem c9_cancel_termination_counterexample : ¬ ReaderCancelTerminates := by
  intro h
  obtain ⟨k, hk⟩ := h ⟨.blockedRecv, false, []⟩ ⟨[.sched], rfl⟩
  have hstay : ∀ n, readerRun ⟨.blockedRecv, true, []⟩ (List.replicate n .sched)
      = ⟨.blockedRecv, true, []⟩ := by
    intro n
    induction n with
    | zero => rfl
    | succ m ihm =>
        simpa [List.replicate_succ, readerRun, readerStep] using ihm
  rw [show readerStep ⟨.blockedRecv, false, ([] : List WSMessage)⟩ .cancelFire
      = ⟨.blockedRecv, true, []⟩ from rfl, hstay k] at hk
  exact absurd hk (by decide)

/-- C9 (amended): each Reader Task polls the cancellation signal at the top
of each loop iteration, so if the signal fires while the task is between
receives it terminates at its next scheduling step, with no further inbound
frame required; if the signal fires while the task is blocked in a receive,
it terminates as soon as that receive returns (a frame — even one — or a
read error, e.g. from a successful socket close), but not on scheduling
steps alone. -/
theorem c9_cancel_termination_amended :
    (∀ cfg : ReaderConfig, cfg.pc = .checkDone →
        (readerRun (readerStep cfg .cancelFire) [.sched]).pc = .exited) ∧
    (∀ (cfg : ReaderConfig) (d : Option WSMessage), cfg.pc = .blockedRecv →
        (readerRun (readerStep cfg .cancelFire) [.recvFrame d, .sched]).pc
          = .exited) ∧
    (∀ cfg : ReaderConfig, cfg.pc = .blockedRecv →
        (readerRun (readerStep cfg .cancelFire) [.recvErr]).pc = .exited) := by
  refine ⟨?_, ?_, ?_⟩
  · intro cfg hpc
    simp [readerRun, readerStep, hpc]
  · intro cfg d hpc
    simp [readerRun, readerStep, hpc]
  · intro cfg hpc
    simp [readerRun, readerStep, hpc]

/-- Witness for the amended C9 at concrete configurations. -/
theorem c9_cancel_termination_amended_witness :
    (readerRun (readerStep readerInit .cancelFire) [.sched]).pc = .exited ∧
    (readerRun (readerStep ⟨.blockedRecv, false, []⟩ .cancelFire)
        [.recvFrame none, .sched]).pc = .exited ∧
    (readerRun (readerStep ⟨.blockedRecv, false, []⟩ .cancelFire)
        [.recvErr]).pc = .exited :=
  ⟨c9_cancel_termination_amended.1 readerInit rfl,
   c9_cancel_termination_amended.2.1 ⟨.blockedRecv, false, []⟩ none rfl,
   c9_cancel_termination_amended.2.2 ⟨.blockedRecv, false, []⟩ rfl⟩
